/-
  Verification of the pipeline orchestrator of the wp-connect repository
  (src/dashboard/lib/scraper-service.ts).

  The development shallowly embeds the `ScraperService` class:
  * run statuses, pipeline steps and trigger types as inductive types;
  * `runCommand`'s per-chunk handling of stdout/stderr as pure functions
    over a list of chunks;
  * `runFullPipeline` (the try/catch/finally orchestration of the three
    stages) as a pure function of an environment carrying the stage
    results, the outcome of the two mid-run persistence updates, and the
    value of the abort flag at each of the two stage-boundary checks;
  * the single-flight guard (`startScraper` / `stopScraper`) plus the
    persisted run records as a transition system whose reachable states
    are analysed;
  * the scheduler (`startScheduler` / `stopScheduler` /
    `updateSchedulerConfig`) as functions on a scheduler state, with the
    external `cron.validate` supplied as a parameter;
  * the regex statistics extraction of the finalizer (`/(\d+) seller\(s\)/`
    and `/Saved (\d+) products/`) as character-list scanners.
-/
import Mathlib

namespace Scraper

/-- Run statuses, mirroring the `ScraperStatus` union type of the source. -/
inductive Status where
  | RUNNING
  | COMPLETED
  | FAILED
  | AUTH_REQUIRED
  | ENRICHING
  | PROCESSING
  | ENRICHMENT_FAILED
  | PROCESSING_FAILED
deriving DecidableEq, Repr

/-- The status string as stored/broadcast by the source (the union members
are string literals). -/
def Status.text : Status → String
  | .RUNNING => "RUNNING"
  | .COMPLETED => "COMPLETED"
  | .FAILED => "FAILED"
  | .AUTH_REQUIRED => "AUTH_REQUIRED"
  | .ENRICHING => "ENRICHING"
  | .PROCESSING => "PROCESSING"
  | .ENRICHMENT_FAILED => "ENRICHMENT_FAILED"
  | .PROCESSING_FAILED => "PROCESSING_FAILED"

/-- A status is non-terminal when a run carrying it is still in progress. -/
def Status.isNonterminal : Status → Bool
  | .RUNNING => true
  | .ENRICHING => true
  | .PROCESSING => true
  | _ => false

/-- In-memory pipeline step (`PipelineStep` union type of the source). -/
inductive PipelineStep where
  | IDLE
  | SCRAPING
  | ENRICHING
  | PROCESSING
deriving DecidableEq, Repr

/-- Trigger types (`TriggerType` union type of the source). -/
inductive TriggerType where
  | MANUAL
  | SCHEDULED
deriving DecidableEq, Repr

/-- The values `runFullPipeline` ever assigns to its `finalStatus` local:
only these five statuses can be persisted by the finalizer. -/
inductive FinalStatus where
  | completed
  | failed
  | authRequired
  | enrichmentFailed
  | processingFailed
deriving DecidableEq, Repr

/-- Embedding of a final status into the status type. -/
def FinalStatus.toStatus : FinalStatus → Status
  | .completed => .COMPLETED
  | .failed => .FAILED
  | .authRequired => .AUTH_REQUIRED
  | .enrichmentFailed => .ENRICHMENT_FAILED
  | .processingFailed => .PROCESSING_FAILED

/-- `needle` occurs as a contiguous infix of the character list
(`String.prototype.includes` of the source). -/
def infixCheck (needle : List Char) : List Char → Bool
  | [] => needle.isEmpty
  | c :: rest => List.isPrefixOf needle (c :: rest) || infixCheck needle rest

/-- `hay.includes(needle)` of the source. -/
def strIncludes (hay needle : String) : Bool :=
  infixCheck needle.data hay.data

/-- Numeric value of a digit run (what `parseInt` returns on the capture
group of the source's regexes, which consists of digits only). -/
def digitsToNat (l : List Char) : Nat :=
  l.foldl (fun n c => n * 10 + (c.toNat - 48)) 0

/-- Left-to-right scan for the source regex `/(\d+) pat/`: at the first
position where a maximal digit run is immediately followed by `pat`,
return the run's value.  (The engine's backtracking cannot shorten the
greedy `\d+`: `pat` starts with a non-digit, so only the maximal run can
be followed by it.) -/
def findNumThen (pat : List Char) : List Char → Option Nat
  | [] => none
  | c :: rest =>
    if c.isDigit then
      let run := List.takeWhile Char.isDigit (c :: rest)
      let tail := List.dropWhile Char.isDigit (c :: rest)
      if List.isPrefixOf pat tail then some (digitsToNat run)
      else findNumThen pat rest
    else findNumThen pat rest

/-- Left-to-right scan for the source regex `/pre(\d+)pat/` (with literal
prefix `pre`): at the first position where `pre` is followed by a
non-empty digit run immediately followed by `pat`, return the run's
value. -/
def findWrappedNum (pre pat : List Char) : List Char → Option Nat
  | [] => none
  | c :: rest =>
    if List.isPrefixOf pre (c :: rest) then
      let after := List.drop pre.length (c :: rest)
      let run := List.takeWhile Char.isDigit after
      let tail := List.dropWhile Char.isDigit after
      if !run.isEmpty && List.isPrefixOf pat tail then some (digitsToNat run)
      else findWrappedNum pre pat rest
    else findWrappedNum pre pat rest

/-- `fullOutput.match(/(\d+) seller\(s\)/)` of the finalizer; `none` when
the regex does not match. -/
def sellersMatch (s : String) : Option Nat :=
  findNumThen (" seller(s)").data s.data

/-- `fullOutput.match(/Saved (\d+) products/)` of the finalizer; `none`
when the regex does not match. -/
def productsMatch (s : String) : Option Nat :=
  findWrappedNum ("Saved ").data (" products").data s.data

/-- `sellersMatch ? parseInt(sellersMatch[1]) : 0` of the finalizer. -/
def parseSellers (s : String) : Nat :=
  (sellersMatch s).getD 0

/-- `productsMatch ? parseInt(productsMatch[1]) : 0` of the finalizer. -/
def parseProducts (s : String) : Nat :=
  (productsMatch s).getD 0

/-! ### `runCommand`: per-chunk stream handling -/

/-- One chunk arriving on the child process's stdout or stderr. -/
inductive Chunk where
  | out (text : String)
  | err (text : String)
deriving DecidableEq, Repr

/-- The text the `data` handlers push onto `commandOutput` and
`this.outputBuffer` for a chunk: stderr chunks are prefixed with
`"[ERROR] "`, stdout chunks are stored verbatim. -/
def chunkStored : Chunk → String
  | .out t => t
  | .err t => "[ERROR] " ++ t

/-- The `(type, data)` pair the handlers broadcast for a chunk: the raw
text, tagged `stdout` or `stderr`. -/
def chunkEvent : Chunk → String × String
  | .out t => ("stdout", t)
  | .err t => ("stderr", t)

/-- `runCommand` given the chunks the child emitted and the close code
(`null` modelled as `none`, coalesced to 1): the resolved exit code, the
resolved combined output (`commandOutput.join('')`), and the broadcast
events in order. -/
def runCommandModel (chunks : List Chunk) (closeCode : Option Int) :
    Int × String × List (String × String) :=
  (closeCode.getD 1,
   String.join (chunks.map chunkStored),
   chunks.map chunkEvent)

/-! ### `runFullPipeline`: the three-stage orchestration -/

/-- Result a stage's `runCommand` resolves with (`runCommand` never
rejects: spawn failure surfaces as exit code 1). -/
structure StageRes where
  code : Int
  out : String
deriving DecidableEq, Repr

/-- Environment of one `runFullPipeline` execution: the three stage
results, whether each of the two mid-run `prisma.scraperRun.update`
calls throws (`some msg` = throws with that message, the path the
`catch` block handles), and the value of `this.abortRequested` at each
point the code reads it.  `abortAt3` is the flag's value while stage 3
runs; the source never reads it, and it is included precisely so that
theorems can quantify over it. -/
structure PipeEnv where
  stage1 : StageRes
  stage2 : StageRes
  stage3 : StageRes
  update2 : Option String
  update3 : Option String
  abortAt1 : Bool
  abortAt2 : Bool
  abortAt3 : Bool
deriving DecidableEq, Repr

/-- What the try/catch part of `runFullPipeline` establishes before the
`finally` block runs. -/
structure BodyOut where
  finalStatus : FinalStatus
  errorMessage : Option String
  buffer : String
  stage2Invoked : Bool
  stage3Invoked : Bool
  midUpdates : List Status
deriving DecidableEq, Repr

/-- The try/catch part of `runFullPipeline`, branch for branch:
auth-marker check, stage-1 exit code, abort check, `ENRICHING` update
(may throw, caught as `FAILED`), stage 2, abort check, `PROCESSING`
update (may throw), stage 3.  `buffer` is the cumulative
`this.outputBuffer` contents; `midUpdates` the statuses written by the
mid-run persistence updates. -/
def pipelineBody (env : PipeEnv) : BodyOut :=
  let out1 := env.stage1.out
  if strIncludes out1 "scan QR code" || strIncludes out1 "QR code" then
    ⟨.authRequired, some "WhatsApp authentication required", out1, false, false, []⟩
  else if env.stage1.code ≠ 0 then
    ⟨.failed, some ("Scraping failed with exit code " ++ toString env.stage1.code),
      out1, false, false, []⟩
  else if env.abortAt1 then
    ⟨.failed, some "Pipeline aborted by user", out1, false, false, []⟩
  else
    match env.update2 with
    | some msg => ⟨.failed, some msg, out1, false, false, []⟩
    | none =>
      let buf2 := out1 ++ env.stage2.out
      if env.stage2.code ≠ 0 then
        ⟨.enrichmentFailed,
          some ("Enrichment failed with exit code " ++ toString env.stage2.code),
          buf2, true, false, [.ENRICHING]⟩
      else if env.abortAt2 then
        ⟨.failed, some "Pipeline aborted by user", buf2, true, false, [.ENRICHING]⟩
      else
        match env.update3 with
        | some msg => ⟨.failed, some msg, buf2, true, false, [.ENRICHING]⟩
        | none =>
          let buf3 := buf2 ++ env.stage3.out
          if env.stage3.code ≠ 0 then
            ⟨.processingFailed,
              some ("Database processing failed with exit code " ++ toString env.stage3.code),
              buf3, true, true, [.ENRICHING, .PROCESSING]⟩
          else
            ⟨.completed, none, buf3, true, true, [.ENRICHING, .PROCESSING]⟩

/-- The run record as persisted by the finalizer's
`prisma.scraperRun.update`. -/
structure RunRecord where
  status : Status
  completedAtSet : Bool
  output : String
  errorMessage : Option String
  sellersProcessed : Nat
  productsScraped : Nat
deriving DecidableEq, Repr

/-- Observable outcome of one `runFullPipeline` execution: persisted
record, the payloads of the `complete` events broadcast, which stage
commands were spawned, the mid-run status updates, and the in-memory
fields after the `finally` block. -/
structure PipeResult where
  record : RunRecord
  completeEvents : List String
  stage2Invoked : Bool
  stage3Invoked : Bool
  midUpdates : List Status
  stepAfter : PipelineStep
  runIdAfter : Option Nat
  abortAfter : Bool
deriving DecidableEq, Repr

/-- `runFullPipeline`: the try/catch body followed by the `finally`
block (parse statistics, persist the final record, broadcast the
summary `status` event and the single `complete` event, reset the
in-memory state). -/
def runFullPipeline (env : PipeEnv) : PipeResult :=
  let b := pipelineBody env
  { record :=
      { status := b.finalStatus.toStatus
        completedAtSet := true
        output := b.buffer
        errorMessage := b.errorMessage
        sellersProcessed := parseSellers b.buffer
        productsScraped := parseProducts b.buffer }
    completeEvents := [(FinalStatus.toStatus b.finalStatus).text]
    stage2Invoked := b.stage2Invoked
    stage3Invoked := b.stage3Invoked
    midUpdates := b.midUpdates
    stepAfter := .IDLE
    runIdAfter := none
    abortAfter := false }

/-! ### Single-flight guard and persisted run records as a transition
system.

Operations are modelled atomically, following the serialized
single-logical-thread execution model of the host: each exposed call and
each segment of the asynchronous pipeline between awaits runs without
interleaving. -/

/-- Orchestrator state: the in-memory fields of the service plus the
persisted run rows (id, status) and the store's next auto-increment id. -/
structure OrchState where
  step : PipelineStep
  currentRunId : Option Nat
  abortRequested : Bool
  runs : List (Nat × Status)
  nextId : Nat
deriving DecidableEq, Repr

/-- Result of a start request. -/
inductive StartResult where
  | ok (runId : Nat)
  | alreadyRunning
deriving DecidableEq, Repr

/-- `isRunning()` of the source. -/
def isRunningB (s : OrchState) : Bool :=
  s.step ≠ PipelineStep.IDLE

/-- `startScraper`: reject when `isRunning()`; otherwise create a
`RUNNING` run row, remember its id, clear the abort flag, and enter the
`SCRAPING` step (the synchronous prefix of `runFullPipeline`). -/
def startScraper (s : OrchState) : OrchState × StartResult :=
  if isRunningB s then (s, .alreadyRunning)
  else
    ({ s with
        step := .SCRAPING
        currentRunId := some s.nextId
        abortRequested := false
        runs := s.runs ++ [(s.nextId, Status.RUNNING)]
        nextId := s.nextId + 1 },
     .ok s.nextId)

/-- `stopScraper`: when running, set the abort flag and return `true`;
when idle, return `false` and change nothing. -/
def stopScraper (s : OrchState) : OrchState × Bool :=
  if isRunningB s then ({ s with abortRequested := true }, true)
  else (s, false)

/-- `prisma.scraperRun.update({where: {id}, data: {status}})`. -/
def updateRun (runs : List (Nat × Status)) (id : Nat) (st : Status) :
    List (Nat × Status) :=
  runs.map fun p => if p.1 = id then (p.1, st) else p

/-- Atomic segments of the system's execution: a start request (manual
or scheduled tick), a stop request, the pipeline's transition into stage
2 or stage 3, and the pipeline's finalizer. -/
inductive OrchAction where
  | start
  | stop
  | toEnriching
  | toProcessing
  | finalize (f : FinalStatus)
deriving DecidableEq, Repr

/-- Effect of one atomic segment on the state.  Pipeline segments are
guarded by the step they execute in (the async function is only ever at
one point of its body). -/
def execAction (a : OrchAction) (s : OrchState) : OrchState :=
  match a with
  | .start => (startScraper s).1
  | .stop => (stopScraper s).1
  | .toEnriching =>
    if s.step = .SCRAPING then
      match s.currentRunId with
      | some id =>
        { s with step := .ENRICHING, runs := updateRun s.runs id .ENRICHING }
      | none => s
    else s
  | .toProcessing =>
    if s.step = .ENRICHING then
      match s.currentRunId with
      | some id =>
        { s with step := .PROCESSING, runs := updateRun s.runs id .PROCESSING }
      | none => s
    else s
  | .finalize f =>
    if s.step ≠ .IDLE then
      match s.currentRunId with
      | some id =>
        { s with
            step := .IDLE
            currentRunId := none
            abortRequested := false
            runs := updateRun s.runs id f.toStatus }
      | none =>
        { s with step := .IDLE, currentRunId := none, abortRequested := false }
    else s

/-- Initial state: idle service, empty run table. -/
def initState : OrchState :=
  ⟨.IDLE, none, false, [], 0⟩

/-- State after a sequence of atomic segments from the initial state. -/
def runActions (acts : List OrchAction) : OrchState :=
  acts.foldl (fun s a => execAction a s) initState

/-- At most one run row carries a non-terminal status. -/
def AtMostOneNonterminal (runs : List (Nat × Status)) : Prop :=
  ∀ p q, p ∈ runs → q ∈ runs →
    p.2.isNonterminal = true → q.2.isNonterminal = true → p = q

/-- Inductive invariant of the transition system. -/
def Inv (s : OrchState) : Prop :=
  (∀ p ∈ s.runs, p.1 < s.nextId) ∧
  (s.runs.map Prod.fst).Nodup ∧
  (∀ p ∈ s.runs, p.2.isNonterminal = true → s.currentRunId = some p.1) ∧
  (s.step = .IDLE → s.currentRunId = none)

/-! ### Scheduler -/

/-- A `cron.ScheduledTask`: its expression and whether it is active
(`stop()` deactivates without clearing the service's reference). -/
structure Task where
  expr : String
  active : Bool
deriving DecidableEq, Repr

/-- Scheduler-relevant state: the persisted singleton `SchedulerConfig`
row (`none` before first creation) and the service's `scheduledTask`
field. -/
structure SchedState where
  config : Option (Bool × String)
  task : Option Task
deriving DecidableEq, Repr

/-- `startScheduler`: stop any existing task, validate, and only on a
valid expression install a fresh active task.  `validate` stands for the
external `cron.validate`. -/
def startScheduler (validate : String → Bool) (s : SchedState)
    (cronExpr : String) : SchedState :=
  let s1 := { s with task := s.task.map fun t => { t with active := false } }
  if validate cronExpr then { s1 with task := some ⟨cronExpr, true⟩ }
  else s1

/-- `stopScheduler`: stop and clear the task if present. -/
def stopScheduler (s : SchedState) : SchedState :=
  match s.task with
  | some _ => { s with task := none }
  | none => s

/-- `updateSchedulerConfig`: upsert the requested `(enabled, cronExpr)`
pair verbatim, then install the timer only when `enabled` and the
expression validates, otherwise tear the timer down. -/
def updateSchedulerConfig (validate : String → Bool) (s : SchedState)
    (enabled : Bool) (cronExpr : String) : SchedState :=
  let s1 := { s with config := some (enabled, cronExpr) }
  if enabled && validate cronExpr then startScheduler validate s1 cronExpr
  else stopScheduler s1

/-- A scheduled run can fire only off an installed, active task. -/
def canFire (s : SchedState) : Bool :=
  match s.task with
  | some t => t.active
  | none => false

/-! ### `broadcast`: delivery to subscribers

`broadcast` is `this.listeners.forEach((cb) => cb(output))`: the
callbacks run synchronously in subscription order (a JS `Set` iterates
in insertion order), with no exception handling around the call — an
exception thrown by a callback propagates out of `forEach`.  A
subscriber is abstracted by whether its callback throws on this event. -/

/-- Deliver one event to the subscriber list (each entry: does that
callback throw?), numbering subscribers from `i`.  Returns the indices
of the callbacks that were invoked, in invocation order, and the index
of the throwing callback whose exception propagated to the publisher,
if any. -/
def deliver : List Bool → Nat → List Nat × Option Nat
  | [], _ => ([], none)
  | throws :: rest, i =>
    if throws then ([i], some i)
    else
      let r := deliver rest (i + 1)
      (i :: r.1, r.2)

/-- `broadcast` on a subscriber list. -/
def broadcastModel (listeners : List Bool) : List Nat × Option Nat :=
  deliver listeners 0

/-! ### Lemmas about the transition system -/

/-- A status update keeps the run row ids. -/
theorem updateRun_map_fst (runs : List (Nat × Status)) (id : Nat) (st : Status) :
    (updateRun runs id st).map Prod.fst = runs.map Prod.fst := by
  induction runs with
  | nil => rfl
  | cons q rest ih =>
    by_cases h : q.1 = id <;> simp [updateRun, h] at ih ⊢ <;> exact ih

/-- Membership after a status update: either the row was the updated one
or it is an untouched row of the original list. -/
theorem mem_updateRun {runs : List (Nat × Status)} {id : Nat} {st : Status}
    {p : Nat × Status} (h : p ∈ updateRun runs id st) :
    (∃ q, q ∈ runs ∧ q.1 = id ∧ p = (q.1, st)) ∨ (p ∈ runs ∧ p.1 ≠ id) := by
  unfold updateRun at h
  rcases List.mem_map.1 h with ⟨q, hq, he⟩
  by_cases h1 : q.1 = id
  · exact Or.inl ⟨q, hq, h1, by rw [← he, if_pos h1]⟩
  · rw [if_neg h1] at he
    exact Or.inr ⟨he ▸ hq, by rw [← he]; exact h1⟩

/-- Row ids after a status update stay below the allocation bound. -/
theorem updateRun_fst_lt {runs : List (Nat × Status)} {id n : Nat} {st : Status}
    (h : ∀ p ∈ runs, p.1 < n) :
    ∀ p ∈ updateRun runs id st, p.1 < n := by
  intro p hp
  have hm : p.1 ∈ (updateRun runs id st).map Prod.fst := List.mem_map_of_mem Prod.fst hp
  rw [updateRun_map_fst] at hm
  rcases List.mem_map.1 hm with ⟨q, hq, hqe⟩
  rw [← hqe]
  exact h q hq

/-- Every status the finalizer can persist is terminal. -/
theorem finalStatus_not_nonterminal (f : FinalStatus) :
    (FinalStatus.toStatus f).isNonterminal = false := by
  cases f <;> rfl

/-- `startScraper` on an idle service: the accepted path. -/
theorem startScraper_accepted {s : OrchState} (hr : s.step = PipelineStep.IDLE) :
    startScraper s =
      ({ s with
          step := .SCRAPING
          currentRunId := some s.nextId
          abortRequested := false
          runs := s.runs ++ [(s.nextId, Status.RUNNING)]
          nextId := s.nextId + 1 },
       .ok s.nextId) := by
  simp [startScraper, isRunningB, hr]

/-- `startScraper` on a busy service: rejected, state untouched. -/
theorem startScraper_rejected {s : OrchState} (hr : s.step ≠ PipelineStep.IDLE) :
    startScraper s = (s, .alreadyRunning) := by
  simp [startScraper, isRunningB, hr]

/-- `stopScraper` on a busy service: abort flag set, `true` returned. -/
theorem stopScraper_running {s : OrchState} (hr : s.step ≠ PipelineStep.IDLE) :
    stopScraper s = ({ s with abortRequested := true }, true) := by
  simp [stopScraper, isRunningB, hr]

/-- `stopScraper` on an idle service: `false` returned, state untouched. -/
theorem stopScraper_idle {s : OrchState} (hr : s.step = PipelineStep.IDLE) :
    stopScraper s = (s, false) := by
  simp [stopScraper, isRunningB, hr]

/-- Effect of the stage-2 transition segment. -/
theorem execAction_toEnriching {s : OrchState} {id : Nat}
    (hs : s.step = PipelineStep.SCRAPING) (hc : s.currentRunId = some id) :
    execAction .toEnriching s =
      { s with step := .ENRICHING, runs := updateRun s.runs id .ENRICHING } := by
  simp [execAction, hs, hc]

/-- Effect of the stage-3 transition segment. -/
theorem execAction_toProcessing {s : OrchState} {id : Nat}
    (hs : s.step = PipelineStep.ENRICHING) (hc : s.currentRunId = some id) :
    execAction .toProcessing s =
      { s with step := .PROCESSING, runs := updateRun s.runs id .PROCESSING } := by
  simp [execAction, hs, hc]

/-- Effect of the finalizer segment when a run is active. -/
theorem execAction_finalize {s : OrchState} {id : Nat} {f : FinalStatus}
    (hs : s.step ≠ PipelineStep.IDLE) (hc : s.currentRunId = some id) :
    execAction (.finalize f) s =
      { s with
          step := .IDLE
          currentRunId := none
          abortRequested := false
          runs := updateRun s.runs id f.toStatus } := by
  simp [execAction, hs, hc]

/-- The invariant is preserved by every atomic segment. -/
theorem inv_exec (a : OrchAction) (s : OrchState) (h : Inv s) : Inv (execAction a s) := by
  obtain ⟨h1, h2, h3, h4⟩ := h
  cases a with
  | start =>
    show Inv (startScraper s).1
    by_cases hr : s.step = PipelineStep.IDLE
    · rw [startScraper_accepted hr]
      refine ⟨?_, ?_, ?_, ?_⟩
      · intro p hp
        rcases List.mem_append.1 hp with hm | hm
        · exact Nat.lt_succ_of_lt (h1 p hm)
        · rw [List.mem_singleton.1 hm]
          exact Nat.lt_succ_self _
      · show (List.map Prod.fst (s.runs ++ [(s.nextId, Status.RUNNING)])).Nodup
        rw [List.map_append]
        refine List.Nodup.append h2 (by simp) ?_
        intro a ha hb
        simp only [List.map_cons, List.map_nil, List.mem_singleton] at hb
        rcases List.mem_map.1 ha with ⟨q, hq, hqe⟩
        have : a < s.nextId := hqe ▸ h1 q hq
        omega
      · intro p hp hnt
        show some s.nextId = some p.1
        rcases List.mem_append.1 hp with hm | hm
        · have := h3 p hm hnt
          rw [h4 hr] at this
          exact absurd this (by simp)
        · rw [List.mem_singleton.1 hm]
      · intro habs
        simp at habs
    · rw [startScraper_rejected hr]
      exact ⟨h1, h2, h3, h4⟩
  | stop =>
    show Inv (stopScraper s).1
    by_cases hr : s.step = PipelineStep.IDLE
    · rw [stopScraper_idle hr]
      exact ⟨h1, h2, h3, h4⟩
    · rw [stopScraper_running hr]
      exact ⟨h1, h2, h3, h4⟩
  | toEnriching =>
    by_cases hs : s.step = PipelineStep.SCRAPING
    · cases hc : s.currentRunId with
      | none =>
        have : execAction .toEnriching s = s := by simp [execAction, hs, hc]
        rw [this]
        exact ⟨h1, h2, h3, h4⟩
      | some id =>
        rw [execAction_toEnriching hs hc]
        refine ⟨updateRun_fst_lt h1, ?_, ?_, ?_⟩
        · show (List.map Prod.fst (updateRun s.runs id .ENRICHING)).Nodup
          rw [updateRun_map_fst]
          exact h2
        · intro p hp hnt
          show s.currentRunId = some p.1
          rcases mem_updateRun hp with ⟨q, hq, hqid, rfl⟩ | ⟨hm, hne⟩
          · rw [hc, hqid]
          · exact h3 p hm hnt
        · intro habs
          simp at habs
    · have : execAction .toEnriching s = s := by simp [execAction, hs]
      rw [this]
      exact ⟨h1, h2, h3, h4⟩
  | toProcessing =>
    by_cases hs : s.step = PipelineStep.ENRICHING
    · cases hc : s.currentRunId with
      | none =>
        have : execAction .toProcessing s = s := by simp [execAction, hs, hc]
        rw [this]
        exact ⟨h1, h2, h3, h4⟩
      | some id =>
        rw [execAction_toProcessing hs hc]
        refine ⟨updateRun_fst_lt h1, ?_, ?_, ?_⟩
        · show (List.map Prod.fst (updateRun s.runs id .PROCESSING)).Nodup
          rw [updateRun_map_fst]
          exact h2
        · intro p hp hnt
          show s.currentRunId = some p.1
          rcases mem_updateRun hp with ⟨q, hq, hqid, rfl⟩ | ⟨hm, hne⟩
          · rw [hc, hqid]
          · exact h3 p hm hnt
        · intro habs
          simp at habs
    · have : execAction .toProcessing s = s := by simp [execAction, hs]
      rw [this]
      exact ⟨h1, h2, h3, h4⟩
  | finalize f =>
    by_cases hs : s.step = PipelineStep.IDLE
    · have : execAction (.finalize f) s = s := by simp [execAction, hs]
      rw [this]
      exact ⟨h1, h2, h3, h4⟩
    · cases hc : s.currentRunId with
      | none =>
        have : execAction (.finalize f) s =
            { s with step := .IDLE, currentRunId := none, abortRequested := false } := by
          simp [execAction, hs, hc]
        rw [this]
        refine ⟨h1, h2, ?_, fun _ => rfl⟩
        intro p hp hnt
        have := h3 p hp hnt
        rw [hc] at this
        exact absurd this (by simp)
      | some id =>
        rw [execAction_finalize hs hc]
        refine ⟨updateRun_fst_lt h1, ?_, ?_, fun _ => rfl⟩
        · show (List.map Prod.fst (updateRun s.runs id f.toStatus)).Nodup
          rw [updateRun_map_fst]
          exact h2
        · intro p hp hnt
          rcases mem_updateRun hp with ⟨q, hq, hqid, rfl⟩ | ⟨hm, hne⟩
          · have hterm := finalStatus_not_nonterminal f
            show none = some (q.1, f.toStatus).1
            rw [show ((q.1, f.toStatus) : Nat × Status).2 = f.toStatus from rfl] at hnt
            rw [hterm] at hnt
            exact absurd hnt (by simp)
          · have := h3 p hm hnt
            rw [hc] at this
            exact absurd (Option.some.inj this).symm hne

/-- The invariant holds in every reachable state. -/
theorem inv_runActions (acts : List OrchAction) : Inv (runActions acts) := by
  have main : ∀ (l : List OrchAction) (s : OrchState), Inv s →
      Inv (l.foldl (fun s a => execAction a s) s) := by
    intro l
    induction l with
    | nil => intro s h; exact h
    | cons a rest ih =>
      intro s h
      exact ih _ (inv_exec a s h)
  refine main acts initState ⟨?_, ?_, ?_, fun _ => rfl⟩ <;> simp [initState]

/-- The invariant implies the at-most-one-non-terminal-run property. -/
theorem atMostOne_of_inv {s : OrchState} (h : Inv s) : AtMostOneNonterminal s.runs := by
  obtain ⟨_, h2, h3, _⟩ := h
  intro p q hp hq hpn hqn
  have e1 := h3 p hp hpn
  have e2 := h3 q hq hqn
  exact List.inj_on_of_nodup_map h2 hp hq (Option.some.inj (e1.symm.trans e2))

/-! ### Claim theorems -/

/-- C1: a start request made while the in-memory state is not `IDLE`
returns the already-running rejection and creates no new run record
(the state, including the run table, is unchanged), and along every
sequence of atomic segments from the initial state at most one run
record is in a non-terminal status. -/
theorem c1_single_flight :
    (∀ s : OrchState, s.step ≠ PipelineStep.IDLE →
      startScraper s = (s, StartResult.alreadyRunning)) ∧
    (∀ acts : List OrchAction, AtMostOneNonterminal (runActions acts).runs) :=
  ⟨fun _ hs => startScraper_rejected hs,
   fun acts => atMostOne_of_inv (inv_runActions acts)⟩

/-- Witness for C1 at a concrete busy state and a concrete action
sequence with two consecutive start requests. -/
theorem c1_single_flight_witness :
    startScraper ⟨PipelineStep.SCRAPING, some 0, false, [(0, Status.RUNNING)], 1⟩ =
      (⟨PipelineStep.SCRAPING, some 0, false, [(0, Status.RUNNING)], 1⟩,
        StartResult.alreadyRunning) ∧
    AtMostOneNonterminal (runActions [OrchAction.start, OrchAction.start]).runs :=
  ⟨c1_single_flight.1 _ (by decide),
   c1_single_flight.2 [OrchAction.start, OrchAction.start]⟩

/-- The cumulative buffer of the body is exactly the concatenation of
the outputs of the stages that were invoked. -/
theorem pipelineBody_buffer (env : PipeEnv) :
    (pipelineBody env).buffer =
      env.stage1.out ++
        (if (pipelineBody env).stage2Invoked then env.stage2.out else "") ++
        (if (pipelineBody env).stage3Invoked then env.stage3.out else "") := by
  obtain ⟨⟨c1, o1⟩, ⟨c2, o2⟩, ⟨c3, o3⟩, u2, u3, a1, a2, a3⟩ := env
  by_cases hm : (strIncludes o1 "scan QR code" || strIncludes o1 "QR code") = true
  · simp [pipelineBody, hm, String.append_empty]
  · by_cases hc1 : c1 = 0
    · by_cases ha1 : a1 = true
      · simp [pipelineBody, hm, hc1, ha1, String.append_empty]
      · cases u2 with
        | some msg => simp [pipelineBody, hm, hc1, ha1, String.append_empty]
        | none =>
          by_cases hc2 : c2 = 0
          · by_cases ha2 : a2 = true
            · simp [pipelineBody, hm, hc1, ha1, hc2, ha2, String.append_empty]
            · cases u3 with
              | some msg =>
                simp [pipelineBody, hm, hc1, ha1, hc2, ha2, String.append_empty]
              | none =>
                by_cases hc3 : c3 = 0 <;>
                  simp [pipelineBody, hm, hc1, ha1, hc2, ha2, hc3,
                    String.append_empty, String.append_assoc]
          · simp [pipelineBody, hm, hc1, ha1, hc2, String.append_empty]
    · simp [pipelineBody, hm, hc1, String.append_empty]

/-- On the auth-marker branch the body is fully determined. -/
theorem pipelineBody_auth {env : PipeEnv}
    (h : strIncludes env.stage1.out "QR code" = true) :
    pipelineBody env =
      ⟨.authRequired, some "WhatsApp authentication required",
        env.stage1.out, false, false, []⟩ := by
  simp [pipelineBody, h]

/-- C2: whatever branch the pipeline takes, the single finalization step
runs: the record is persisted with the final status, `completedAt`, the
cumulative output of exactly the invoked stages, and the error message;
exactly one `complete` event is broadcast whose payload equals the
persisted status string; and the in-memory state is reset (not running,
no current run id, abort flag cleared). -/
theorem c2_finalization (env : PipeEnv) :
    (runFullPipeline env).record.status = (pipelineBody env).finalStatus.toStatus ∧
    (runFullPipeline env).record.completedAtSet = true ∧
    (runFullPipeline env).record.errorMessage = (pipelineBody env).errorMessage ∧
    (runFullPipeline env).record.output =
      env.stage1.out ++
        (if (runFullPipeline env).stage2Invoked then env.stage2.out else "") ++
        (if (runFullPipeline env).stage3Invoked then env.stage3.out else "") ∧
    (runFullPipeline env).completeEvents =
      [(runFullPipeline env).record.status.text] ∧
    (runFullPipeline env).completeEvents.length = 1 ∧
    isRunningB ⟨(runFullPipeline env).stepAfter, (runFullPipeline env).runIdAfter,
      (runFullPipeline env).abortAfter, [], 0⟩ = false ∧
    (runFullPipeline env).runIdAfter = none ∧
    (runFullPipeline env).abortAfter = false := by
  refine ⟨rfl, rfl, rfl, ?_, rfl, rfl, rfl, rfl, rfl⟩
  show (pipelineBody env).buffer = _
  have h2i : (runFullPipeline env).stage2Invoked = (pipelineBody env).stage2Invoked := rfl
  have h3i : (runFullPipeline env).stage3Invoked = (pipelineBody env).stage3Invoked := rfl
  rw [h2i, h3i]
  exact pipelineBody_buffer env

/-- C3: when the stage-1 combined output contains the authentication
marker, the run finalizes as `AUTH_REQUIRED` and neither the enrichment
nor the processing command is spawned. -/
theorem c3_auth_required (env : PipeEnv)
    (h : strIncludes env.stage1.out "QR code" = true) :
    (runFullPipeline env).record.status = Status.AUTH_REQUIRED ∧
    (runFullPipeline env).stage2Invoked = false ∧
    (runFullPipeline env).stage3Invoked = false := by
  refine ⟨?_, ?_, ?_⟩
  · show (pipelineBody env).finalStatus.toStatus = Status.AUTH_REQUIRED
    rw [pipelineBody_auth h]
    rfl
  · show (pipelineBody env).stage2Invoked = false
    rw [pipelineBody_auth h]
  · show (pipelineBody env).stage3Invoked = false
    rw [pipelineBody_auth h]

/-- Witness for C3 at a concrete environment whose stage-1 output shows
the QR-code prompt. -/
theorem c3_auth_required_witness :
    strIncludes "please scan QR code" "QR code" = true ∧
    (runFullPipeline ⟨⟨0, "please scan QR code"⟩, ⟨0, ""⟩, ⟨0, ""⟩,
        none, none, false, false, false⟩).record.status = Status.AUTH_REQUIRED ∧
    (runFullPipeline ⟨⟨0, "please scan QR code"⟩, ⟨0, ""⟩, ⟨0, ""⟩,
        none, none, false, false, false⟩).stage2Invoked = false ∧
    (runFullPipeline ⟨⟨0, "please scan QR code"⟩, ⟨0, ""⟩, ⟨0, ""⟩,
        none, none, false, false, false⟩).stage3Invoked = false :=
  ⟨by decide,
   c3_auth_required ⟨⟨0, "please scan QR code"⟩, ⟨0, ""⟩, ⟨0, ""⟩,
     none, none, false, false, false⟩ (by decide)⟩

/-- C4 counterexample: updating the scheduler configuration with
`enabled = true` and an expression the validator rejects still persists
`enabled = true` (the upsert writes the requested pair verbatim), so the
rejection does not leave the persisted `enabled` flag un-mutated: it
flips from `false` to `true` even though no timer is installed. -/
theorem c4_counterexample :
    (⟨some (false, "0 9,21 * * *"), some ⟨"0 9,21 * * *", true⟩⟩ : SchedState).config =
      some (false, "0 9,21 * * *") ∧
    (fun _ => false : String → Bool) "not a cron" = false ∧
    (updateSchedulerConfig (fun _ => false)
        ⟨some (false, "0 9,21 * * *"), some ⟨"0 9,21 * * *", true⟩⟩
        true "not a cron").config = some (true, "not a cron") ∧
    (updateSchedulerConfig (fun _ => false)
        ⟨some (false, "0 9,21 * * *"), some ⟨"0 9,21 * * *", true⟩⟩
        true "not a cron").task = none := by
  constructor
  · rfl
  constructor
  · rfl
  constructor
  · rfl
  · rfl

/-- C4 (amended): updating the scheduler configuration with an invalid
cron expression persists the requested `(enabled, cronExpr)` pair
verbatim (even `enabled = true`), uninstalls any previously installed
timer, installs no new one, and leaves no task a scheduled run could
fire from. -/
theorem c4_invalid_cron (validate : String → Bool) (s : SchedState)
    (enabled : Bool) (cronExpr : String) (h : validate cronExpr = false) :
    (updateSchedulerConfig validate s enabled cronExpr).config =
      some (enabled, cronExpr) ∧
    (updateSchedulerConfig validate s enabled cronExpr).task = none ∧
    canFire (updateSchedulerConfig validate s enabled cronExpr) = false := by
  cases ht : s.task with
  | none => simp [updateSchedulerConfig, h, stopScheduler, canFire, ht]
  | some t => simp [updateSchedulerConfig, h, stopScheduler, canFire, ht]

/-- Witness for C4 at a concrete rejecting validator, previously
installed timer, and `enabled = true`. -/
theorem c4_invalid_cron_witness :
    (fun _ => false : String → Bool) "bad expr" = false ∧
    ((updateSchedulerConfig (fun _ => false) ⟨none, some ⟨"@old", true⟩⟩
        true "bad expr").config = some (true, "bad expr") ∧
      (updateSchedulerConfig (fun _ => false) ⟨none, some ⟨"@old", true⟩⟩
        true "bad expr").task = none ∧
      canFire (updateSchedulerConfig (fun _ => false) ⟨none, some ⟨"@old", true⟩⟩
        true "bad expr") = false) :=
  ⟨rfl, c4_invalid_cron (fun _ => false) ⟨none, some ⟨"@old", true⟩⟩
    true "bad expr" rfl⟩

/-- Delivery to a throw-free tail invokes everyone in order. -/
theorem deliver_no_throw (l : List Bool) :
    ∀ i, (∀ b ∈ l, b = false) → deliver l i = (List.range' i l.length, none) := by
  induction l with
  | nil => intro i _; rfl
  | cons b rest ih =>
    intro i h
    have hb : b = false := h b (List.mem_cons_self b rest)
    have hrest : ∀ x ∈ rest, x = false := fun x hx => h x (List.mem_cons_of_mem b hx)
    simp only [deliver, hb, Bool.false_eq_true, if_false, ih (i + 1) hrest,
      List.length_cons, List.range'_succ]

/-- Delivery stops at the first throwing callback: the throw-free part
and the throwing callback itself are invoked, nobody after it is, and
the throwing callback's index surfaces as the error. -/
theorem deliver_stops (l1 : List Bool) :
    ∀ i l2, (∀ b ∈ l1, b = false) →
      deliver (l1 ++ true :: l2) i = (List.range' i (l1.length + 1), some (i + l1.length)) := by
  induction l1 with
  | nil =>
    intro i l2 _
    simp [deliver, List.range'_succ]
  | cons b rest ih =>
    intro i l2 h
    have hb : b = false := h b (List.mem_cons_self b rest)
    have hrest : ∀ x ∈ rest, x = false := fun x hx => h x (List.mem_cons_of_mem b hx)
    have hstep : deliver ((b :: rest) ++ true :: l2) i =
        (i :: (deliver (rest ++ true :: l2) (i + 1)).1,
          (deliver (rest ++ true :: l2) (i + 1)).2) := by
      simp [deliver, hb]
    rw [hstep, ih (i + 1) l2 hrest]
    simp only [List.length_cons, List.range'_succ, Prod.mk.injEq, List.cons.injEq,
      Option.some.injEq]
    exact ⟨trivial, by omega⟩

/-- C5 counterexample: with two subscribers of which the first throws,
`broadcast` (a bare `forEach` with no exception handling) never invokes
the second subscriber and lets the exception surface to the publisher,
contradicting the claimed fire-and-forget delivery. -/
theorem c5_counterexample :
    broadcastModel [true, false] = ([0], some 0) ∧
    1 ∉ (broadcastModel [true, false]).1 ∧
    (broadcastModel [true, false]).2 ≠ none := by
  refine ⟨rfl, ?_, ?_⟩
  · decide
  · decide

/-- C5 (amended): `publish` invokes subscribers synchronously in
subscription order up to and including the first whose callback throws:
when no callback throws every subscriber is invoked in order and no
error surfaces, and when one throws, the subscribers after it are not
invoked and the exception propagates to the publisher. -/
theorem c5_broadcast_order :
    (∀ l : List Bool, (∀ b ∈ l, b = false) →
      (broadcastModel l).1 = List.range l.length ∧ (broadcastModel l).2 = none) ∧
    (∀ l1 l2 : List Bool, (∀ b ∈ l1, b = false) →
      broadcastModel (l1 ++ true :: l2) =
        (List.range (l1.length + 1), some l1.length)) := by
  constructor
  · intro l h
    rw [broadcastModel, deliver_no_throw l 0 h, List.range_eq_range']
    exact ⟨rfl, rfl⟩
  · intro l1 l2 h
    rw [broadcastModel, deliver_stops l1 0 l2 h, List.range_eq_range']
    simp

/-- Witness for C5 at a three-subscriber list with no thrower and a
list whose second subscriber throws. -/
theorem c5_broadcast_order_witness :
    ((broadcastModel [false, false, false]).1 = List.range 3 ∧
      (broadcastModel [false, false, false]).2 = none) ∧
    broadcastModel ([false] ++ true :: [false]) = (List.range 2, some 1) :=
  ⟨c5_broadcast_order.1 [false, false, false] (by decide),
   c5_broadcast_order.2 [false] [false] (by decide)⟩

/-- C6 counterexample: stop is requested during stage 1 (the abort flag
is `true` at the stage-1 boundary) and stage 1 exits 0, yet because the
auth-marker check precedes the abort check, a stage-1 output containing
the QR marker finalizes the run as `AUTH_REQUIRED`, not with the abort
failure status and message the claim demands. -/
theorem c6_counterexample :
    (⟨⟨0, "please scan QR code"⟩, ⟨0, ""⟩, ⟨0, ""⟩, none, none,
        true, true, false⟩ : PipeEnv).abortAt1 = true ∧
    (⟨⟨0, "please scan QR code"⟩, ⟨0, ""⟩, ⟨0, ""⟩, none, none,
        true, true, false⟩ : PipeEnv).stage1.code = 0 ∧
    (runFullPipeline ⟨⟨0, "please scan QR code"⟩, ⟨0, ""⟩, ⟨0, ""⟩, none, none,
        true, true, false⟩).record.status = Status.AUTH_REQUIRED ∧
    (runFullPipeline ⟨⟨0, "please scan QR code"⟩, ⟨0, ""⟩, ⟨0, ""⟩, none, none,
        true, true, false⟩).record.status ≠ Status.FAILED ∧
    (runFullPipeline ⟨⟨0, "please scan QR code"⟩, ⟨0, ""⟩, ⟨0, ""⟩, none, none,
        true, true, false⟩).record.errorMessage ≠ some "Pipeline aborted by user" := by
  refine ⟨rfl, rfl, ?_, ?_, ?_⟩ <;> decide

/-- C6 (amended): `stop()` during `SCRAPING` returns `true` and sets the
abort flag; the flag is read after the auth-marker and exit-code checks,
so when stage 1 exits 0 and its output lacks the auth markers the
pipeline halts before stage 2 with status `FAILED` and message
"Pipeline aborted by user"; `stop()` while `IDLE` returns `false` and
changes nothing. -/
theorem c6_abort_during_scraping (env : PipeEnv) (s sIdle : OrchState)
    (hscr : s.step = PipelineStep.SCRAPING)
    (hidle : sIdle.step = PipelineStep.IDLE)
    (hm : (strIncludes env.stage1.out "scan QR code" ||
      strIncludes env.stage1.out "QR code") = false)
    (hc1 : env.stage1.code = 0) (ha1 : env.abortAt1 = true) :
    (stopScraper s).2 = true ∧
    (stopScraper s).1.abortRequested = true ∧
    (runFullPipeline env).record.status = Status.FAILED ∧
    (runFullPipeline env).record.errorMessage = some "Pipeline aborted by user" ∧
    (runFullPipeline env).stage2Invoked = false ∧
    (runFullPipeline env).stage3Invoked = false ∧
    stopScraper sIdle = (sIdle, false) := by
  have hne : s.step ≠ PipelineStep.IDLE := by rw [hscr]; decide
  have hb : pipelineBody env =
      ⟨.failed, some "Pipeline aborted by user", env.stage1.out, false, false, []⟩ := by
    simp [pipelineBody, hm, hc1, ha1]
  refine ⟨?_, ?_, ?_, ?_, ?_, ?_, stopScraper_idle hidle⟩
  · rw [stopScraper_running hne]
  · rw [stopScraper_running hne]
  · show (pipelineBody env).finalStatus.toStatus = _
    rw [hb]
    rfl
  · show (pipelineBody env).errorMessage = _
    rw [hb]
  · show (pipelineBody env).stage2Invoked = _
    rw [hb]
  · show (pipelineBody env).stage3Invoked = _
    rw [hb]

/-- Witness for C6 at a concrete aborted run and concrete states. -/
theorem c6_abort_during_scraping_witness :
    (stopScraper ⟨PipelineStep.SCRAPING, some 0, false, [(0, Status.RUNNING)], 1⟩).2 = true ∧
    (stopScraper ⟨PipelineStep.SCRAPING, some 0, false,
      [(0, Status.RUNNING)], 1⟩).1.abortRequested = true ∧
    (runFullPipeline ⟨⟨0, "scrape done"⟩, ⟨0, ""⟩, ⟨0, ""⟩, none, none,
      true, true, false⟩).record.status = Status.FAILED ∧
    (runFullPipeline ⟨⟨0, "scrape done"⟩, ⟨0, ""⟩, ⟨0, ""⟩, none, none,
      true, true, false⟩).record.errorMessage = some "Pipeline aborted by user" ∧
    (runFullPipeline ⟨⟨0, "scrape done"⟩, ⟨0, ""⟩, ⟨0, ""⟩, none, none,
      true, true, false⟩).stage2Invoked = false ∧
    (runFullPipeline ⟨⟨0, "scrape done"⟩, ⟨0, ""⟩, ⟨0, ""⟩, none, none,
      true, true, false⟩).stage3Invoked = false ∧
    stopScraper ⟨PipelineStep.IDLE, none, false, [], 0⟩ =
      (⟨PipelineStep.IDLE, none, false, [], 0⟩, false) :=
  c6_abort_during_scraping
    ⟨⟨0, "scrape done"⟩, ⟨0, ""⟩, ⟨0, ""⟩, none, none, true, true, false⟩
    ⟨PipelineStep.SCRAPING, some 0, false, [(0, Status.RUNNING)], 1⟩
    ⟨PipelineStep.IDLE, none, false, [], 0⟩
    rfl rfl (by decide) rfl rfl

/-- C7: when the run reaches stage 2 (stage 1 exited 0 with no auth
marker and no abort, and the `ENRICHING` update succeeded) and the
enrichment command exits non-zero, the run finalizes as
`ENRICHMENT_FAILED` with `completedAt` set and the processing command
is never spawned. -/
theorem c7_enrichment_failed (env : PipeEnv)
    (hm : (strIncludes env.stage1.out "scan QR code" ||
      strIncludes env.stage1.out "QR code") = false)
    (hc1 : env.stage1.code = 0) (ha1 : env.abortAt1 = false)
    (hu2 : env.update2 = none) (hc2 : env.stage2.code ≠ 0) :
    (runFullPipeline env).record.status = Status.ENRICHMENT_FAILED ∧
    (runFullPipeline env).record.completedAtSet = true ∧
    (runFullPipeline env).record.errorMessage =
      some ("Enrichment failed with exit code " ++ toString env.stage2.code) ∧
    (runFullPipeline env).stage2Invoked = true ∧
    (runFullPipeline env).stage3Invoked = false := by
  have hb : pipelineBody env =
      ⟨.enrichmentFailed,
        some ("Enrichment failed with exit code " ++ toString env.stage2.code),
        env.stage1.out ++ env.stage2.out, true, false, [.ENRICHING]⟩ := by
    simp [pipelineBody, hm, hc1, ha1, hu2, hc2]
  refine ⟨?_, rfl, ?_, ?_, ?_⟩
  · show (pipelineBody env).finalStatus.toStatus = _
    rw [hb]
    rfl
  · show (pipelineBody env).errorMessage = _
    rw [hb]
  · show (pipelineBody env).stage2Invoked = _
    rw [hb]
  · show (pipelineBody env).stage3Invoked = _
    rw [hb]

/-- Witness for C7 at a concrete run whose enrichment exits 2. -/
theorem c7_enrichment_failed_witness :
    (runFullPipeline ⟨⟨0, "scrape ok"⟩, ⟨2, "enrich boom"⟩, ⟨0, ""⟩, none, none,
      false, false, false⟩).record.status = Status.ENRICHMENT_FAILED ∧
    (runFullPipeline ⟨⟨0, "scrape ok"⟩, ⟨2, "enrich boom"⟩, ⟨0, ""⟩, none, none,
      false, false, false⟩).record.completedAtSet = true ∧
    (runFullPipeline ⟨⟨0, "scrape ok"⟩, ⟨2, "enrich boom"⟩, ⟨0, ""⟩, none, none,
      false, false, false⟩).record.errorMessage =
      some ("Enrichment failed with exit code " ++ toString (2 : Int)) ∧
    (runFullPipeline ⟨⟨0, "scrape ok"⟩, ⟨2, "enrich boom"⟩, ⟨0, ""⟩, none, none,
      false, false, false⟩).stage2Invoked = true ∧
    (runFullPipeline ⟨⟨0, "scrape ok"⟩, ⟨2, "enrich boom"⟩, ⟨0, ""⟩, none, none,
      false, false, false⟩).stage3Invoked = false :=
  c7_enrichment_failed
    ⟨⟨0, "scrape ok"⟩, ⟨2, "enrich boom"⟩, ⟨0, ""⟩, none, none, false, false, false⟩
    (by decide) rfl rfl rfl (by decide)

/-- C9: `stop()` during `PROCESSING` returns `true` (the abort flag is
set), yet no abort check exists after stage 3: a run whose three stages
all exit 0 finalizes as `COMPLETED` regardless of the abort flag's value
during stage 3. -/
theorem c9_abort_after_processing (env : PipeEnv) (s : OrchState)
    (hstep : s.step = PipelineStep.PROCESSING)
    (hm : (strIncludes env.stage1.out "scan QR code" ||
      strIncludes env.stage1.out "QR code") = false)
    (hc1 : env.stage1.code = 0) (ha1 : env.abortAt1 = false)
    (hu2 : env.update2 = none) (hc2 : env.stage2.code = 0) (ha2 : env.abortAt2 = false)
    (hu3 : env.update3 = none) (hc3 : env.stage3.code = 0)
    (_ha3 : env.abortAt3 = true) :
    (stopScraper s).2 = true ∧
    (stopScraper s).1.abortRequested = true ∧
    (runFullPipeline env).record.status = Status.COMPLETED ∧
    (runFullPipeline env).completeEvents = ["COMPLETED"] := by
  have hne : s.step ≠ PipelineStep.IDLE := by rw [hstep]; decide
  have hb : pipelineBody env =
      ⟨.completed, none, env.stage1.out ++ env.stage2.out ++ env.stage3.out,
        true, true, [.ENRICHING, .PROCESSING]⟩ := by
    simp [pipelineBody, hm, hc1, ha1, hu2, hc2, ha2, hu3, hc3]
  refine ⟨?_, ?_, ?_, ?_⟩
  · rw [stopScraper_running hne]
  · rw [stopScraper_running hne]
  · show (pipelineBody env).finalStatus.toStatus = _
    rw [hb]
    rfl
  · show [(pipelineBody env).finalStatus.toStatus.text] = _
    rw [hb]
    rfl

/-- Witness for C9 at a concrete all-zero-exit run whose abort flag is
raised while stage 3 runs. -/
theorem c9_abort_after_processing_witness :
    (stopScraper ⟨PipelineStep.PROCESSING, some 0, false, [(0, Status.PROCESSING)], 1⟩).2 = true ∧
    (stopScraper ⟨PipelineStep.PROCESSING, some 0, false,
      [(0, Status.PROCESSING)], 1⟩).1.abortRequested = true ∧
    (runFullPipeline ⟨⟨0, "s ok"⟩, ⟨0, "e ok"⟩, ⟨0, "p ok"⟩, none, none,
      false, false, true⟩).record.status = Status.COMPLETED ∧
    (runFullPipeline ⟨⟨0, "s ok"⟩, ⟨0, "e ok"⟩, ⟨0, "p ok"⟩, none, none,
      false, false, true⟩).completeEvents = ["COMPLETED"] :=
  c9_abort_after_processing
    ⟨⟨0, "s ok"⟩, ⟨0, "e ok"⟩, ⟨0, "p ok"⟩, none, none, false, false, true⟩
    ⟨PipelineStep.PROCESSING, some 0, false, [(0, Status.PROCESSING)], 1⟩
    rfl (by decide) rfl rfl rfl rfl rfl rfl rfl rfl

/-- C8: the finalizer parses `sellersProcessed` from the first
occurrence of the `(\d+) seller(s)` pattern and `productsScraped` from
the first occurrence of `Saved (\d+) products`; an absent pattern
defaults the counter to 0 (total functions, no error path); and the
persisted record's counters are exactly these parses of the persisted
output. -/
theorem c8_stats_parsing :
    parseSellers "... 7 seller(s) ... Saved 42 products ..." = 7 ∧
    parseProducts "... 7 seller(s) ... Saved 42 products ..." = 42 ∧
    parseSellers "3 seller(s) then 9 seller(s)" = 3 ∧
    parseProducts "Saved 5 products and Saved 8 products" = 5 ∧
    sellersMatch "no counters here" = none ∧
    parseSellers "no counters here" = 0 ∧
    productsMatch "no counters here" = none ∧
    parseProducts "no counters here" = 0 ∧
    (∀ s : String, sellersMatch s = none → parseSellers s = 0) ∧
    (∀ s : String, productsMatch s = none → parseProducts s = 0) ∧
    (∀ env : PipeEnv,
      (runFullPipeline env).record.sellersProcessed =
        parseSellers (runFullPipeline env).record.output ∧
      (runFullPipeline env).record.productsScraped =
        parseProducts (runFullPipeline env).record.output) := by
  refine ⟨by decide, by decide, by decide, by decide, by decide, by decide,
    by decide, by decide, ?_, ?_, fun env => ⟨rfl, rfl⟩⟩
  · intro s h
    simp [parseSellers, h]
  · intro s h
    simp [parseProducts, h]

/-- Witness for C8's universally quantified default-to-zero parts at a
concrete patternless output. -/
theorem c8_stats_parsing_witness :
    parseSellers "zzz" = 0 ∧ parseProducts "zzz" = 0 :=
  ⟨(c8_stats_parsing.2.2.2.2.2.2.2.2.1) "zzz" (by decide),
   (c8_stats_parsing.2.2.2.2.2.2.2.2.2.1) "zzz" (by decide)⟩

/-- C10: for every stderr chunk, the text appended to the cumulative
persisted output is the chunk prefixed with "[ERROR] ", while the
broadcast `stderr` event carries the raw chunk text, and the two always
differ; `runCommand`'s resolved output is the concatenation of the
stored texts while its event stream carries the raw ones. -/
theorem c10_stderr_marking :
    (∀ t : String, chunkStored (Chunk.err t) = "[ERROR] " ++ t) ∧
    (∀ t : String, chunkEvent (Chunk.err t) = ("stderr", t)) ∧
    (∀ t : String, chunkStored (Chunk.err t) ≠ (chunkEvent (Chunk.err t)).2) ∧
    (∀ (chunks : List Chunk) (closeCode : Option Int),
      (runCommandModel chunks closeCode).2.1 = String.join (chunks.map chunkStored) ∧
      (runCommandModel chunks closeCode).2.2 = chunks.map chunkEvent) := by
  refine ⟨fun t => rfl, fun t => rfl, ?_, fun chunks closeCode => ⟨rfl, rfl⟩⟩
  intro t h
  have hl : ("[ERROR] " ++ t).length = t.length := congrArg String.length h
  rw [String.length_append] at hl
  have h8 : ("[ERROR] " : String).length = 8 := rfl
  rw [h8] at hl
  omega

end Scraper
